import Mathlib

/-
Verification of the img-host service against its specification.

The repository contains a React frontend plus three backend variants in one
source tree:
  * a Cloudflare Worker (TypeScript): `fetch`, `getAllowedOrigin`,
    `handleOptions`, `handleUpload`, `handleGet`;
  * a Go/Fiber backend without content-type validation ("variant 1",
    `app.Post("/upload")` returning only a message);
  * a Go/Fiber backend with content-type validation and time-derived keys
    ("variant 2", `app.Post("/upload")`, `app.Get("/:key")`, `NewR2Service`).

We embed the request handlers shallowly.  Bytes are lists of naturals,
filenames are handled at the character-list level (JS strings and Go strings
are sequences of code units; all operations used by the code are per
character).  The Blob Store collaborator (R2 / S3 client) is modelled as an
association list of objects plus two failure flags that decide whether the
client put/get raises; raising is modelled with `Except`.  A trace of
store operations performed by a handler is recorded so that "no put is
performed" style properties can be stated.
-/

namespace ImgHost

/-- Byte payloads of uploaded files and stored objects. -/
abbrev Bytes := List Nat

/-- A stored object: body plus the content type recorded at put time
(`httpMetadata.contentType` in the Worker, `ContentType` in the Go client). -/
structure R2Object where
  body : Bytes
  contentType : String
deriving Repr, DecidableEq

/-- The Blob Store collaborator.  `objects` is the store content (most recent
put first); `putFails` / `getFails` make the client raise on the
corresponding call, modelling network/storage exceptions. -/
structure R2Bucket where
  objects : List (String × R2Object)
  putFails : Bool
  getFails : Bool
deriving Repr, DecidableEq

/-- Content lookup: the most recently put object under a key, if any. -/
def R2Bucket.lookup (b : R2Bucket) (k : String) : Option R2Object :=
  (b.objects.find? (fun p => p.1 == k)).map (fun p => p.2)

/-- Store put, as in `bucket.put(key, bytes, meta)`: raises iff `putFails`;
otherwise records the object, shadowing any previous object at that key. -/
def R2Bucket.put (b : R2Bucket) (k : String) (o : R2Object) : Except Unit R2Bucket :=
  if b.putFails then .error () else .ok { b with objects := (k, o) :: b.objects }

/-- Store get, as in `bucket.get(key)`: raises iff `getFails`; otherwise returns the object
or `none` (the Worker R2 binding returns `null` for an absent key). -/
def R2Bucket.get (b : R2Bucket) (k : String) : Except Unit (Option R2Object) :=
  if b.getFails then .error () else .ok (b.lookup k)

/-- The store with no objects and a client that never raises. -/
def emptyBucket : R2Bucket := { objects := [], putFails := false, getFails := false }

/-- Response bodies, kept structured: plain text, the JSON shapes the
handlers serialize, raw object bytes, or the empty body of a preflight. -/
inductive Body where
  | empty : Body
  | text : String → Body
  | jsonErr : String → Body
  | jsonMsg : String → Body
  | jsonUpload : String → String → Body
  | bytes : Bytes → Body
deriving Repr, DecidableEq

/-- The `message` field of a JSON body, when present. -/
def Body.msg? : Body → Option String
  | .jsonMsg m => some m
  | .jsonUpload m _ => some m
  | _ => none

/-- The `filename` field of a JSON body, when present. -/
def Body.fname? : Body → Option String
  | .jsonUpload _ f => some f
  | _ => none

/-- An HTTP response: status, body, headers. -/
structure Response where
  status : Nat
  body : Body
  headers : List (String × String)
deriving Repr, DecidableEq

/-- First header with the given name, as `headers.get(name)` would see it. -/
def Response.header (r : Response) (name : String) : Option String :=
  (r.headers.find? (fun p => p.1 == name)).map (fun p => p.2)

/-- The file part of a multipart form: original name, declared MIME type,
payload (the Worker reads `file.name`, `file.type`, `file.stream()`). -/
structure WFile where
  name : String
  type : String
  bytes : Bytes
deriving Repr, DecidableEq

/-- An incoming request as the Worker observes it: method, URL pathname,
the `Origin` header, and the `file` field of the parsed form data (already
`none` if the field is absent or not a `File`). -/
structure Request where
  method : String
  pathname : String
  origin : Option String
  file : Option WFile
deriving Repr, DecidableEq

/-! ### Key derivation -/

/-- JS `String.prototype.split(sep)` on character lists: `"".split` is
`[""]`, separators at the ends produce empty segments. -/
def splitc (sep : Char) : List Char → List (List Char)
  | [] => [[]]
  | c :: cs =>
    match splitc sep cs with
    | [] => [[]]
    | h :: t => if c = sep then [] :: h :: t else (c :: h) :: t

/-- Hexadecimal digit string of a natural number, most significant first,
lowercase — the digits of JS `n.toString(16)` and Go `fmt.Sprintf("%x", n)`. -/
def hexDigits (n : Nat) : List Char := Nat.toDigits 16 n

/-- Worker: `Date.now().toString(16).slice(-8)` — the low-order (up to) 8
hex digits of the millisecond timestamp. -/
def workerHash (now : Nat) : List Char :=
  (hexDigits now).drop ((hexDigits now).length - 8)

/-- Worker: `const ext = '.' + file.name.split('.').pop()`. -/
def workerExt (fname : List Char) : List Char :=
  '.' :: ((splitc '.' fname).getLast?.getD [])

/-- Worker key derivation (characters):
`name = file.name.slice(0, -ext.length)`; key = `name + '-' + hash + ext`. -/
def workerKey (fname : List Char) (now : Nat) : List Char :=
  fname.take (fname.length - (workerExt fname).length)
    ++ ('-' :: workerHash now) ++ workerExt fname

/-- The storage key the Worker derives for an original filename at clock
instant `now` (`Date.now()` passed explicitly). -/
def deriveFilename (fname : String) (now : Nat) : String :=
  ⟨workerKey fname.data now⟩

/-- Go `path/filepath.Ext` on a path without separators: the suffix starting
at the final dot, empty when the name has no dot. -/
def lastSepSuffix (sep : Char) : List Char → List Char
  | [] => []
  | c :: cs =>
    let r := lastSepSuffix sep cs
    if r.isEmpty then (if c = sep then c :: cs else []) else r

/-- Go: `ext := filepath.Ext(fileHeader.Filename)`. -/
def goExt (fname : List Char) : List Char := lastSepSuffix '.' fname

/-- Go `strings.TrimSuffix`: drop the suffix when it is actually a suffix. -/
def trimSfx (l sfx : List Char) : List Char :=
  if sfx.isSuffixOf l then l.take (l.length - sfx.length) else l

/-- Go variant 2: `fmt.Sprintf("%x", time.Now().UnixNano())[8:]` — the hex
digits of the nanosecond timestamp with the first 8 dropped. -/
def goHash (now : Nat) : List Char := (hexDigits now).drop 8

/-- Go variant 2 key derivation (characters):
`name := strings.TrimSuffix(filename, ext)`; key = `name + "-" + hash + ext`. -/
def goKey (fname : List Char) (now : Nat) : List Char :=
  trimSfx fname (goExt fname) ++ ('-' :: goHash now) ++ goExt fname

/-- The storage key Go variant 2 derives for an original filename at clock
instant `now` (`time.Now().UnixNano()` passed explicitly). -/
def goDeriveFilename (fname : String) (now : Nat) : String :=
  ⟨goKey fname.data now⟩

/-! ### CORS -/

/-- Worker: `const ALLOWED_ORIGINS = [...]`. -/
def ALLOWED_ORIGINS : List String := ["https://img.jer.ee", "http://localhost:3000"]

/-- Worker `getAllowedOrigin`: echo the request `Origin` when allow-listed,
otherwise fall back to `ALLOWED_ORIGINS[0]`. -/
def getAllowedOrigin (origin : Option String) : String :=
  match origin with
  | some o => if ALLOWED_ORIGINS.contains o then o else ALLOWED_ORIGINS.getD 0 ""
  | none => ALLOWED_ORIGINS.getD 0 ""

/-! ### Worker handlers -/

/-- A Blob Store client call issued by a handler (a spy trace). -/
inductive StoreOp where
  | putOp : String → R2Object → StoreOp
  | getOp : String → StoreOp
deriving Repr, DecidableEq

/-- Result of a handler invocation that cannot leak an exception: the
response, the store afterwards, and the trace of store calls made. -/
structure HandlerResult where
  resp : Response
  bucket : R2Bucket
  ops : List StoreOp
deriving Repr, DecidableEq

/-- Worker `handleOptions`: CORS preflight answer (status defaults to 200). -/
def handleOptions (req : Request) : Response :=
  { status := 200
    body := .empty
    headers := [("Access-Control-Allow-Origin", getAllowedOrigin req.origin),
                ("Access-Control-Allow-Methods", "GET, POST, OPTIONS"),
                ("Access-Control-Allow-Headers", "Content-Type, Accept")] }

/-- Headers of the Worker JSON responses. -/
def jsonHeaders (req : Request) : List (String × String) :=
  [("Content-Type", "application/json"),
   ("Access-Control-Allow-Origin", getAllowedOrigin req.origin)]

/-- Worker `handleUpload`.  The whole body is wrapped in `try`/`catch`, so a
raising put is converted to the 500 response rather than propagating
(the startsWith check on `file.type` is prefix comparison on characters). -/
def handleUpload (req : Request) (now : Nat) (bucket : R2Bucket) : HandlerResult :=
  match req.file with
  | none =>
    { resp := { status := 400, body := .jsonErr "File is required", headers := jsonHeaders req }
      bucket := bucket
      ops := [] }
  | some f =>
    if !("image/".data.isPrefixOf f.type.data) then
      { resp := { status := 400, body := .jsonErr "Only image files are allowed",
                  headers := jsonHeaders req }
        bucket := bucket
        ops := [] }
    else
      let filename := deriveFilename f.name now
      let obj : R2Object := { body := f.bytes, contentType := f.type }
      match bucket.put filename obj with
      | .ok b2 =>
        { resp := { status := 200, body := .jsonUpload "Image uploaded successfully" filename,
                    headers := jsonHeaders req }
          bucket := b2
          ops := [.putOp filename obj] }
      | .error _ =>
        { resp := { status := 500, body := .jsonErr "Failed to upload file",
                    headers := jsonHeaders req }
          bucket := bucket
          ops := [.putOp filename obj] }

/-- Worker `handleGet`.  There is no `try`/`catch` here: a raising get
propagates out of the handler (the `.error` result).  A found object is
served with its stored content type (`writeHttpMetadata`) and the CORS
header; the store-native `etag` header is elided from the model. -/
def handleGet (req : Request) (key : String) (bucket : R2Bucket) :
    Except Unit (Response × List StoreOp) :=
  match bucket.get key with
  | .error e => .error e
  | .ok none =>
    .ok ({ status := 404, body := .text "Object Not Found",
           headers := [("Access-Control-Allow-Origin", getAllowedOrigin req.origin)] },
         [.getOp key])
  | .ok (some obj) =>
    .ok ({ status := 200, body := .bytes obj.body,
           headers := [("Content-Type", obj.contentType),
                       ("Access-Control-Allow-Origin", getAllowedOrigin req.origin)] },
         [.getOp key])

/-- The top-level Worker `fetch` dispatcher: OPTIONS preflight, POST only
on `/img/upload`, GET with `key = url.pathname.substring(5)`, and 405 for
every other method. -/
def workerFetch (req : Request) (now : Nat) (bucket : R2Bucket) :
    Except Unit (Response × R2Bucket × List StoreOp) :=
  if req.method = "OPTIONS" then
    .ok (handleOptions req, bucket, [])
  else
    let key := req.pathname.drop 5
    if req.method = "POST" then
      if req.pathname = "/img/upload" then
        let r := handleUpload req now bucket
        .ok (r.resp, r.bucket, r.ops)
      else
        .ok ({ status := 404, body := .text "Not Found", headers := [] }, bucket, [])
    else if req.method = "GET" then
      match handleGet req key bucket with
      | .error e => .error e
      | .ok (resp, ops) => .ok (resp, bucket, ops)
    else
      .ok ({ status := 405, body := .text "Method Not Allowed",
             headers := [("Allow", "GET, POST"),
                         ("Access-Control-Allow-Origin", getAllowedOrigin req.origin)] },
           bucket, [])

/-! ### Go backend variants -/

/-- The file part as the Go handlers observe it (`c.FormFile("file")`):
original filename, the Content-Type header of the part, payload.  The
`Open`/`io.Copy` failure branches (local I/O, external) are elided: the
payload is already at hand. -/
structure GoFormFile where
  filename : String
  contentType : String
  bytes : Bytes
deriving Repr, DecidableEq

/-- Go `GetFileFromR2`: `s3Client.GetObject` returns an error both when the
client fails and when the key is absent (S3 `NoSuchKey` is surfaced as an
error); on success the body bytes and content type are returned. -/
def goGetFileFromR2 (bucket : R2Bucket) (key : String) : Except Unit (Bytes × String) :=
  if bucket.getFails then .error ()
  else
    match bucket.lookup key with
    | none => .error ()
    | some o => .ok (o.body, o.contentType)

/-- Go `UploadFileToR2`: a single `PutObject` with the declared content type. -/
def goUploadFileToR2 (bucket : R2Bucket) (key : String) (file : Bytes) (ct : String) :
    Except Unit R2Bucket :=
  bucket.put key { body := file, contentType := ct }

/-- Go `app.Get("/:key")` (variant 2) and `app.Get("/files/:key")`
(variant 1): any retrieval error — absent key included — becomes HTTP 500
with `error: "Failed to retrieve file"`; a found object is served with its
content type. -/
def goHandleGet (key : String) (bucket : R2Bucket) : Response × List StoreOp :=
  match goGetFileFromR2 bucket key with
  | .error _ =>
    ({ status := 500, body := .jsonErr "Failed to retrieve file", headers := [] },
     [.getOp key])
  | .ok (file, ct) =>
    ({ status := 200, body := .bytes file, headers := [("Content-Type", ct)] },
     [.getOp key])

/-- Go variant 1 `app.Post("/upload")`: no content-type validation, the
*original* filename is the key, and the success body is only
`message: "File uploaded successfully"` with no filename field. -/
def goHandleUpload1 (file? : Option GoFormFile) (bucket : R2Bucket) : HandlerResult :=
  match file? with
  | none =>
    { resp := { status := 400, body := .jsonErr "File is required", headers := [] }
      bucket := bucket
      ops := [] }
  | some f =>
    match goUploadFileToR2 bucket f.filename f.bytes f.contentType with
    | .ok b2 =>
      { resp := { status := 200, body := .jsonMsg "File uploaded successfully", headers := [] }
        bucket := b2
        ops := [.putOp f.filename { body := f.bytes, contentType := f.contentType }] }
    | .error _ =>
      { resp := { status := 500, body := .jsonErr "Failed to upload file", headers := [] }
        bucket := bucket
        ops := [.putOp f.filename { body := f.bytes, contentType := f.contentType }] }

/-- Go variant 2 `app.Post("/upload")`: validates presence and the
`image/` content-type, derives the time-suffixed key, puts, and answers
with message and filename. -/
def goHandleUpload2 (file? : Option GoFormFile) (now : Nat) (bucket : R2Bucket) :
    HandlerResult :=
  match file? with
  | none =>
    { resp := { status := 400, body := .jsonErr "File is required", headers := [] }
      bucket := bucket
      ops := [] }
  | some f =>
    if !("image/".data.isPrefixOf f.contentType.data) then
      { resp := { status := 400, body := .jsonErr "Only image files are allowed", headers := [] }
        bucket := bucket
        ops := [] }
    else
      let filename := goDeriveFilename f.filename now
      match goUploadFileToR2 bucket filename f.bytes f.contentType with
      | .ok b2 =>
        { resp := { status := 200, body := .jsonUpload "Image uploaded successfully" filename,
                    headers := [] }
          bucket := b2
          ops := [.putOp filename { body := f.bytes, contentType := f.contentType }] }
      | .error _ =>
        { resp := { status := 500, body := .jsonErr "Failed to upload file", headers := [] }
          bucket := bucket
          ops := [.putOp filename { body := f.bytes, contentType := f.contentType }] }

/-! ### Startup configuration check (Go variant 2) -/

/-- The service handle kept after initialization (the constructed S3 client
is external; the bucket name is the configuration the handlers use). -/
structure S3Service where
  bucket : String
deriving Repr, DecidableEq

/-- Go `NewR2Service`: reads the four credentials from the environment and
fails when any is empty (`os.Getenv` yields `""` for unset variables).  The
subsequent AWS config construction is an external collaborator and elided. -/
def NewR2Service (getenv : String → String) : Except String S3Service :=
  let account := getenv "CLOUDFLARE_ACCOUNT_ID"
  let accessKey := getenv "CLOUDFLARE_ACCESS_KEY_ID"
  let secretKey := getenv "CLOUDFLARE_ACCESS_KEY_SECRET"
  let bucket := getenv "CLOUDFLARE_BUCKET_NAME"
  if account = "" ∨ accessKey = "" ∨ secretKey = "" ∨ bucket = "" then
    .error "missing required environment variables"
  else
    .ok { bucket := bucket }

/-- Go `main`, up to `app.Listen`: a failing `NewR2Service` is `log.Fatalf`
(process exit, `none`); otherwise the listener is reached with the service
handle (`some`). -/
def mainStartup (getenv : String → String) : Option S3Service :=
  match NewR2Service getenv with
  | .error _ => none
  | .ok s => some s

/-! ### Concrete fixtures used by witnesses -/

/-- A valid image upload request. -/
def catReq : Request :=
  { method := "POST", pathname := "/img/upload",
    origin := some "http://localhost:3000",
    file := some { name := "cat.jpg", type := "image/jpeg", bytes := [137, 80, 78] } }

/-- A retrieval request for the key the `catReq` upload derives at
`Date.now() = 2309737967`. -/
def getReq : Request :=
  { method := "GET", pathname := "/img/cat-89abcdef.jpg", origin := none, file := none }

/-- An upload request whose form has no `file` field. -/
def noFileReq : Request :=
  { method := "POST", pathname := "/img/upload", origin := none, file := none }

/-- An upload request with a non-image declared content type. -/
def textReq : Request :=
  { method := "POST", pathname := "/img/upload", origin := none,
    file := some { name := "a.txt", type := "text/plain", bytes := [1] } }

/-- A second upload of a file also named `cat.jpg`, with a different payload
and subtype. -/
def catReq2 : Request :=
  { method := "POST", pathname := "/img/upload", origin := none,
    file := some { name := "cat.jpg", type := "image/png", bytes := [9] } }

/-- A CORS preflight request from a non-allow-listed origin. -/
def optionsReq : Request :=
  { method := "OPTIONS", pathname := "/img/x", origin := some "https://evil.example",
    file := none }

/-- A store whose client raises on put. -/
def failPutBucket : R2Bucket := { objects := [], putFails := true, getFails := false }

/-- A store whose client raises on get. -/
def failGetBucket : R2Bucket := { objects := [], putFails := false, getFails := true }

/-! ### Helper lemmas about the filename-splitting primitives -/

theorem splitc_ne_nil (sep : Char) (l : List Char) : splitc sep l ≠ [] := by
  cases l with
  | nil => simp [splitc]
  | cons c cs =>
    simp only [splitc]
    cases h : splitc sep cs with
    | nil => simp
    | cons hd tl => by_cases hc : c = sep <;> simp [hc]

theorem splitc_of_not_mem {sep : Char} {l : List Char} (h : sep ∉ l) :
    splitc sep l = [l] := by
  induction l with
  | nil => rfl
  | cons c cs ih =>
    have hc : ¬ c = sep := fun e => h (by simp [e])
    have hcs : sep ∉ cs := fun m => h (List.mem_cons_of_mem _ m)
    simp [splitc, ih hcs, hc]

theorem splitc_length_ge_two {sep : Char} {l : List Char} (h : sep ∈ l) :
    2 ≤ (splitc sep l).length := by
  induction l with
  | nil => cases h
  | cons c cs ih =>
    simp only [splitc]
    cases hs : splitc sep cs with
    | nil => exact absurd hs (splitc_ne_nil _ _)
    | cons hd tl =>
      by_cases hc : c = sep
      · simp [hc]
      · have hcs : sep ∈ cs := by
          rcases List.mem_cons.mp h with h1 | h2
          · exact absurd h1.symm hc
          · exact h2
        have h2 := ih hcs
        rw [hs] at h2
        simp only [hc, if_false]
        simpa using h2

theorem lastSepSuffix_eq_nil {sep : Char} {l : List Char} (h : sep ∉ l) :
    lastSepSuffix sep l = [] := by
  induction l with
  | nil => rfl
  | cons c cs ih =>
    have hc : ¬ c = sep := fun e => h (by simp [e])
    have hcs : sep ∉ cs := fun m => h (List.mem_cons_of_mem _ m)
    simp [lastSepSuffix, ih hcs, hc]

theorem lastSepSuffix_ne_nil {sep : Char} {l : List Char} (h : sep ∈ l) :
    lastSepSuffix sep l ≠ [] := by
  induction l with
  | nil => cases h
  | cons c cs ih =>
    by_cases hcs : sep ∈ cs
    · have h1 := ih hcs
      simp only [lastSepSuffix]
      cases hr : (lastSepSuffix sep cs).isEmpty with
      | true => exact absurd (List.isEmpty_iff.mp hr) h1
      | false => simpa [hr] using h1
    · have hc : c = sep := by
        rcases List.mem_cons.mp h with h1 | h2
        · exact h1.symm
        · exact absurd h2 hcs
      subst hc
      simp [lastSepSuffix, lastSepSuffix_eq_nil hcs]

theorem lastSepSuffix_isSuffix (sep : Char) (l : List Char) :
    lastSepSuffix sep l <:+ l := by
  induction l with
  | nil => exact ⟨[], rfl⟩
  | cons c cs ih =>
    simp only [lastSepSuffix]
    cases hr : (lastSepSuffix sep cs).isEmpty with
    | false =>
      simp only [if_false, Bool.false_eq_true]
      exact ih.trans (List.suffix_cons c cs)
    | true => by_cases hc : c = sep <;> simp [hc]

theorem workerExt_of_mem {l : List Char} (h : '.' ∈ l) :
    workerExt l = lastSepSuffix '.' l := by
  induction l with
  | nil => cases h
  | cons c cs ih =>
    by_cases hcs : '.' ∈ cs
    · have hne := lastSepSuffix_ne_nil hcs
      have hrhs : lastSepSuffix '.' (c :: cs) = lastSepSuffix '.' cs := by
        simp only [lastSepSuffix]
        cases hr : (lastSepSuffix '.' cs).isEmpty with
        | true => exact absurd (List.isEmpty_iff.mp hr) hne
        | false => simp
      have hsp : (splitc '.' (c :: cs)).getLast? = (splitc '.' cs).getLast? := by
        obtain ⟨hd, tl, hst⟩ : ∃ hd tl, splitc '.' cs = hd :: tl := by
          cases hs : splitc '.' cs with
          | nil => exact absurd hs (splitc_ne_nil _ _)
          | cons a b => exact ⟨a, b, rfl⟩
        have hlen := splitc_length_ge_two hcs
        rw [hst] at hlen
        obtain ⟨y, t2, htl⟩ : ∃ y t2, tl = y :: t2 := by
          cases tl with
          | nil => simp at hlen
          | cons y t2 => exact ⟨y, t2, rfl⟩
        subst htl
        simp only [splitc, hst]
        by_cases hc : c = '.'
        · simp [hc, List.getLast?_cons_cons]
        · simp [hc, List.getLast?_cons_cons]
      rw [hrhs, ← ih hcs]
      simp only [workerExt, hsp]
    · have hc : c = '.' := by
        rcases List.mem_cons.mp h with h1 | h2
        · exact h1.symm
        · exact absurd h2 hcs
      subst hc
      simp [workerExt, splitc, splitc_of_not_mem hcs, lastSepSuffix,
        lastSepSuffix_eq_nil hcs]

theorem trimSfx_goExt (l : List Char) :
    trimSfx l (goExt l) = l.take (l.length - (goExt l).length) := by
  have h : (goExt l).isSuffixOf l = true :=
    List.isSuffixOf_iff_suffix.mpr (lastSepSuffix_isSuffix '.' l)
  simp [trimSfx, h]

/-! ### Claim C1 — key derivation -/

/-- Claim C1 (counterexample): the claim states that for a filename with no
dot the derived key is the whole filename followed by "-" and the 8-hex-digit
suffix.  The Worker upload handler instead produces an empty base and an
extension of "." plus the whole filename: at `Date.now() = 2309737967`
(hex `89abcdef`), the Worker key for `cat` is `-89abcdef.cat`, not
`cat-89abcdef`. -/
theorem c1_dotless_key_counterexample :
    deriveFilename "cat" 2309737967 = "-89abcdef.cat" ∧
    deriveFilename "cat" 2309737967 ≠ "cat-89abcdef" := by
  constructor
  · rfl
  · decide

/-- Claim C1 (amended): the Go variant derives `base + "-" + suffix + ext`
for every filename, with `ext` the substring from the last dot (empty when
there is no dot, in which case the key is the whole filename, "-", and the
suffix) and its suffix equal to the low-order 8 hex digits whenever the hex
timestamp has 16 digits.  The Worker derives the same shape only for
filenames containing a dot; for a dotless filename its extension is "." plus
the whole name and its base is empty, so the key is `-suffix.filename`. -/
theorem c1_key_derivation_amended :
    (∀ (f : List Char) (t : Nat), '.' ∈ f →
        workerKey f t =
          f.take (f.length - (lastSepSuffix '.' f).length)
            ++ ('-' :: workerHash t) ++ lastSepSuffix '.' f) ∧
    (∀ (f : List Char) (t : Nat),
        goKey f t =
          f.take (f.length - (goExt f).length) ++ ('-' :: goHash t) ++ goExt f) ∧
    (∀ (f : List Char) (t : Nat), '.' ∉ f →
        goExt f = [] ∧ goKey f t = f ++ ('-' :: goHash t)) ∧
    (∀ (f : List Char) (t : Nat), '.' ∉ f →
        workerKey f t = ('-' :: workerHash t) ++ ('.' :: f)) ∧
    (∀ t : Nat, (hexDigits t).length = 16 →
        goHash t = (hexDigits t).drop ((hexDigits t).length - 8)) := by
  refine ⟨?_, ?_, ?_, ?_, ?_⟩
  · intro f t h
    rw [workerKey, workerExt_of_mem h]
  · intro f t
    rw [goKey, trimSfx_goExt]
  · intro f t h
    have h1 : goExt f = [] := lastSepSuffix_eq_nil h
    refine ⟨h1, ?_⟩
    rw [goKey, h1, trimSfx]
    simp
  · intro f t h
    rw [workerKey, workerExt, splitc_of_not_mem h]
    have h0 : f.length - ('.' :: ([f].getLast?.getD [])).length = 0 := by
      simp
    simp [h0]
  · intro t h
    simp [goHash, h]

/-- Witness for the amended claim C1 at concrete inputs: `photo.png` (dotted,
Worker case) and `cat` (dotless, Worker case). -/
theorem c1_key_derivation_amended_witness :
    workerKey "photo.png".data 2309737967 =
      "photo.png".data.take
          ("photo.png".data.length - (lastSepSuffix '.' "photo.png".data).length)
        ++ ('-' :: workerHash 2309737967) ++ lastSepSuffix '.' "photo.png".data ∧
    workerKey "cat".data 2309737967 = ('-' :: workerHash 2309737967) ++ ('.' :: "cat".data) :=
  ⟨c1_key_derivation_amended.1 "photo.png".data 2309737967 (by decide),
   c1_key_derivation_amended.2.2.2.1 "cat".data 2309737967 (by decide)⟩

/-- A derived storage key is never the empty string: it always contains the
"-" between base and suffix. -/
theorem deriveFilename_ne_empty (fname : String) (now : Nat) :
    deriveFilename fname now ≠ "" := by
  intro h
  have h3 : workerKey fname.data now = [] := congrArg String.data h
  simp [workerKey] at h3

/-! ### Claim C2 — upload/retrieve round trip -/

/-- Claim C2: for every valid image upload (file present, `image/` content
type) with a non-raising store, the response is 200 with a non-empty
`filename`, and retrieving that filename returns 200 with exactly the
uploaded bytes and the declared content type. -/
theorem c2_upload_roundtrip (req req2 : Request) (now : Nat) (bucket : R2Bucket)
    (f : WFile) (hf : req.file = some f)
    (himg : "image/".data.isPrefixOf f.type.data = true)
    (hput : bucket.putFails = false)
    (hget : bucket.getFails = false) :
    (handleUpload req now bucket).resp.status = 200 ∧
    (handleUpload req now bucket).resp.body.fname? = some (deriveFilename f.name now) ∧
    deriveFilename f.name now ≠ "" ∧
    handleGet req2 (deriveFilename f.name now) (handleUpload req now bucket).bucket =
      .ok ({ status := 200, body := .bytes f.bytes,
             headers := [("Content-Type", f.type),
                         ("Access-Control-Allow-Origin", getAllowedOrigin req2.origin)] },
           [.getOp (deriveFilename f.name now)]) := by
  refine ⟨?_, ?_, deriveFilename_ne_empty f.name now, ?_⟩ <;>
    simp [handleUpload, hf, himg, R2Bucket.put, hput, handleGet, R2Bucket.get, hget,
      R2Bucket.lookup, List.find?, Body.fname?]

/-- Witness for claim C2 at a concrete upload. -/
theorem c2_upload_roundtrip_witness :
    (handleUpload catReq 2309737967 emptyBucket).resp.status = 200 ∧
    (handleUpload catReq 2309737967 emptyBucket).resp.body.fname? =
      some (deriveFilename "cat.jpg" 2309737967) ∧
    deriveFilename "cat.jpg" 2309737967 ≠ "" ∧
    handleGet getReq (deriveFilename "cat.jpg" 2309737967)
        (handleUpload catReq 2309737967 emptyBucket).bucket =
      .ok ({ status := 200, body := .bytes [137, 80, 78],
             headers := [("Content-Type", "image/jpeg"),
                         ("Access-Control-Allow-Origin", getAllowedOrigin getReq.origin)] },
           [.getOp (deriveFilename "cat.jpg" 2309737967)]) :=
  c2_upload_roundtrip catReq getReq 2309737967 emptyBucket
    { name := "cat.jpg", type := "image/jpeg", bytes := [137, 80, 78] }
    rfl (by decide) rfl rfl

/-! ### Claim C3 — upload validation failures -/

/-- Claim C3: a missing `file` field yields 400 `File is required`; a
non-`image/` content type yields 400 `Only image files are allowed`; in both
cases (Worker handler and Go variant 2) the store is untouched and no put
call is issued. -/
theorem c3_validation_rejections (req : Request) (now : Nat) (b : R2Bucket) :
    (req.file = none →
      handleUpload req now b =
        { resp := { status := 400, body := .jsonErr "File is required",
                    headers := jsonHeaders req },
          bucket := b, ops := [] }) ∧
    (∀ f : WFile, req.file = some f →
      "image/".data.isPrefixOf f.type.data = false →
      handleUpload req now b =
        { resp := { status := 400, body := .jsonErr "Only image files are allowed",
                    headers := jsonHeaders req },
          bucket := b, ops := [] }) ∧
    (goHandleUpload2 none now b =
        { resp := { status := 400, body := .jsonErr "File is required", headers := [] },
          bucket := b, ops := [] }) ∧
    (∀ g : GoFormFile, "image/".data.isPrefixOf g.contentType.data = false →
      goHandleUpload2 (some g) now b =
        { resp := { status := 400, body := .jsonErr "Only image files are allowed",
                    headers := [] },
          bucket := b, ops := [] }) := by
  refine ⟨?_, ?_, rfl, ?_⟩
  · intro h
    simp [handleUpload, h]
  · intro f hf ht
    simp [handleUpload, hf, ht]
  · intro g ht
    simp [goHandleUpload2, ht]

/-- Witness for claim C3: both rejection branches at concrete requests. -/
theorem c3_validation_rejections_witness :
    handleUpload noFileReq 0 emptyBucket =
      { resp := { status := 400, body := .jsonErr "File is required",
                  headers := jsonHeaders noFileReq },
        bucket := emptyBucket, ops := [] } ∧
    handleUpload textReq 0 emptyBucket =
      { resp := { status := 400, body := .jsonErr "Only image files are allowed",
                  headers := jsonHeaders textReq },
        bucket := emptyBucket, ops := [] } :=
  ⟨(c3_validation_rejections noFileReq 0 emptyBucket).1 rfl,
   (c3_validation_rejections textReq 0 emptyBucket).2.1
     { name := "a.txt", type := "text/plain", bytes := [1] } rfl (by decide)⟩

/-! ### Claim C4 — retrieval of an absent key -/

/-- Claim C4 (counterexample): the Go retrieval handler does not answer 404
for an absent key — it maps every `GetObject` failure, absent key included,
to HTTP 500 with `error: "Failed to retrieve file"`. -/
theorem c4_go_not_found_counterexample :
    (goHandleGet "missing" emptyBucket).1.status = 500 ∧
    ¬ (goHandleGet "missing" emptyBucket).1.status = 404 := by
  decide

/-- Claim C4 (amended): the Worker retrieval handler answers an absent key
with HTTP 404, a plain-text error body and no object bytes; the Go variants
instead answer HTTP 500 with the JSON error body (also without object
bytes). -/
theorem c4_not_found_amended (req : Request) (key : String) (b : R2Bucket)
    (habs : b.lookup key = none) (hget : b.getFails = false) :
    handleGet req key b =
      .ok ({ status := 404, body := .text "Object Not Found",
             headers := [("Access-Control-Allow-Origin", getAllowedOrigin req.origin)] },
           [.getOp key]) ∧
    goHandleGet key b =
      ({ status := 500, body := .jsonErr "Failed to retrieve file", headers := [] },
       [.getOp key]) := by
  constructor
  · simp [handleGet, R2Bucket.get, hget, habs]
  · simp [goHandleGet, goGetFileFromR2, hget, habs]

/-- Witness for the amended claim C4 at a concrete absent key. -/
theorem c4_not_found_amended_witness :
    handleGet getReq "nope" emptyBucket =
      .ok ({ status := 404, body := .text "Object Not Found",
             headers := [("Access-Control-Allow-Origin", getAllowedOrigin getReq.origin)] },
           [.getOp "nope"]) ∧
    goHandleGet "nope" emptyBucket =
      ({ status := 500, body := .jsonErr "Failed to retrieve file", headers := [] },
       [.getOp "nope"]) :=
  c4_not_found_amended getReq "nope" emptyBucket rfl rfl

/-! ### Claim C5 — the clock as explicit input -/

/-- The function `workerKey` determines the truncated suffix for a fixed filename. -/
theorem workerKey_hash_eq {x : List Char} {t1 t2 : Nat}
    (h : workerKey x t1 = workerKey x t2) : workerHash t1 = workerHash t2 := by
  rw [workerKey, workerKey] at h
  have h2 := List.append_cancel_right h
  have h3 := List.append_cancel_left h2
  injection h3

/-- Claim C5: for the same filename, two instants whose truncated low-order
hex suffixes differ derive different keys; at equal truncated suffixes the
keys coincide and a second upload silently overwrites the first object — it
still answers 200 and the store then serves the second payload under the
shared key. -/
theorem c5_truncated_clock (req1 req2 : Request) (f1 f2 : WFile) (t1 t2 : Nat)
    (b : R2Bucket)
    (hname : f1.name = f2.name)
    (h1 : req1.file = some f1) (h2 : req2.file = some f2)
    (himg1 : "image/".data.isPrefixOf f1.type.data = true)
    (himg2 : "image/".data.isPrefixOf f2.type.data = true)
    (hput : b.putFails = false) :
    (workerHash t1 ≠ workerHash t2 →
      deriveFilename f1.name t1 ≠ deriveFilename f2.name t2) ∧
    (workerHash t1 = workerHash t2 →
      deriveFilename f1.name t1 = deriveFilename f2.name t2 ∧
      (handleUpload req2 t2 (handleUpload req1 t1 b).bucket).resp.status = 200 ∧
      (handleUpload req2 t2 (handleUpload req1 t1 b).bucket).bucket.lookup
          (deriveFilename f1.name t1) =
        some { body := f2.bytes, contentType := f2.type }) := by
  constructor
  · intro hh he
    rw [hname] at he
    exact hh (workerKey_hash_eq (congrArg String.data he))
  · intro hh
    have hkeys : deriveFilename f1.name t1 = deriveFilename f2.name t2 := by
      rw [hname, deriveFilename, deriveFilename, workerKey, workerKey, hh]
    refine ⟨hkeys, ?_, ?_⟩ <;>
      simp [handleUpload, h1, h2, himg1, himg2, R2Bucket.put, hput, R2Bucket.lookup,
        List.find?, hkeys]

/-- Witness for claim C5: distinct instants 1 and 2 give distinct keys for
`cat.jpg`; two uploads of `cat.jpg` at the same instant 7 leave the second
payload under the shared key. -/
theorem c5_truncated_clock_witness :
    deriveFilename "cat.jpg" 1 ≠ deriveFilename "cat.jpg" 2 ∧
    (handleUpload catReq2 7 (handleUpload catReq 7 emptyBucket).bucket).bucket.lookup
        (deriveFilename "cat.jpg" 7) =
      some { body := [9], contentType := "image/png" } :=
  ⟨(c5_truncated_clock catReq catReq2
      { name := "cat.jpg", type := "image/jpeg", bytes := [137, 80, 78] }
      { name := "cat.jpg", type := "image/png", bytes := [9] }
      1 2 emptyBucket rfl rfl rfl (by decide) (by decide) rfl).1 (by decide),
   ((c5_truncated_clock catReq catReq2
      { name := "cat.jpg", type := "image/jpeg", bytes := [137, 80, 78] }
      { name := "cat.jpg", type := "image/png", bytes := [9] }
      7 7 emptyBucket rfl rfl rfl (by decide) (by decide) rfl).2 rfl).2.2⟩

/-! ### Claim C6 — CORS header on every response -/

/-- Every response of the Worker upload handler carries the allow-list CORS
header. -/
theorem handleUpload_ACAO (req : Request) (now : Nat) (b : R2Bucket) :
    (handleUpload req now b).resp.header "Access-Control-Allow-Origin" =
      some (getAllowedOrigin req.origin) := by
  rw [handleUpload]
  cases hf : req.file with
  | none => rfl
  | some f =>
    simp only
    split
    · rfl
    · split <;> rfl

/-- Every response the Worker retrieval handler returns (when it does not
raise) carries the allow-list CORS header. -/
theorem handleGet_ACAO (req : Request) (key : String) (b : R2Bucket)
    (r : Response) (o : List StoreOp) (h : handleGet req key b = .ok (r, o)) :
    r.header "Access-Control-Allow-Origin" = some (getAllowedOrigin req.origin) := by
  rw [handleGet] at h
  cases hg : b.get key with
  | error e => rw [hg] at h; cases h
  | ok w =>
    rw [hg] at h
    cases w with
    | none =>
      simp only [Except.ok.injEq, Prod.mk.injEq] at h
      obtain ⟨h1, -⟩ := h
      rw [← h1]; rfl
    | some obj =>
      simp only [Except.ok.injEq, Prod.mk.injEq] at h
      obtain ⟨h1, -⟩ := h
      rw [← h1]; rfl

/-- Claim C6 (counterexample): a POST to a path other than `/img/upload` is
answered 404 `Not Found` with an empty header list — in particular with no
Access-Control-Allow-Origin header, even when the request Origin is
allow-listed. -/
theorem c6_missing_cors_counterexample :
    workerFetch { method := "POST", pathname := "/assets", origin := some "https://img.jer.ee",
                  file := none } 0 emptyBucket =
      .ok ({ status := 404, body := .text "Not Found", headers := [] }, emptyBucket, []) ∧
    Response.header { status := 404, body := .text "Not Found", headers := [] }
        "Access-Control-Allow-Origin" = none := by
  constructor <;> rfl

/-- Claim C6 (amended): every Worker response except the 404 `Not Found`
answered to a POST on a path other than `/img/upload` carries
Access-Control-Allow-Origin with the allow-list value: the request Origin
when allow-listed, otherwise the first allow-list entry. -/
theorem c6_cors_amended :
    (∀ (req : Request) (now : Nat) (b : R2Bucket) (resp : Response)
        (b2 : R2Bucket) (ops : List StoreOp),
      workerFetch req now b = .ok (resp, b2, ops) →
      (req.method = "POST" → req.pathname = "/img/upload") →
      resp.header "Access-Control-Allow-Origin" = some (getAllowedOrigin req.origin)) ∧
    (∀ o : String, o ∈ ALLOWED_ORIGINS → getAllowedOrigin (some o) = o) ∧
    (∀ o : String, o ∉ ALLOWED_ORIGINS → getAllowedOrigin (some o) = "https://img.jer.ee") ∧
    getAllowedOrigin none = "https://img.jer.ee" := by
  refine ⟨?_, ?_, ?_, rfl⟩
  · intro req now b resp b2 ops hres hexc
    by_cases hm1 : req.method = "OPTIONS"
    · simp [workerFetch, hm1] at hres
      obtain ⟨h1, -, -⟩ := hres
      rw [← h1]; rfl
    · by_cases hm2 : req.method = "POST"
      · have hp := hexc hm2
        simp [workerFetch, hm1, hm2, hp] at hres
        obtain ⟨h1, -, -⟩ := hres
        rw [← h1]
        exact handleUpload_ACAO req now b
      · by_cases hm3 : req.method = "GET"
        · simp [workerFetch, hm1, hm2, hm3] at hres
          cases hg : handleGet req (req.pathname.drop 5) b with
          | error e =>
            rw [hg] at hres
            simp at hres
          | ok p =>
            obtain ⟨r, o⟩ := p
            rw [hg] at hres
            simp at hres
            obtain ⟨h1, -, -⟩ := hres
            rw [← h1]
            exact handleGet_ACAO req _ b _ _ hg
        · simp [workerFetch, hm1, hm2, hm3] at hres
          obtain ⟨h1, -, -⟩ := hres
          rw [← h1]; rfl
  · intro o ho
    simp [getAllowedOrigin, ho]
  · intro o ho
    simp [getAllowedOrigin, ho, ALLOWED_ORIGINS]
    intro hor
    rcases hor with h | h
    · exact h
    · exact absurd (by simp [ALLOWED_ORIGINS, h]) ho

/-- Witness for the amended claim C6: a preflight from a non-allow-listed
origin is answered with the fallback origin in the CORS header. -/
theorem c6_cors_amended_witness :
    (handleOptions optionsReq).header "Access-Control-Allow-Origin" =
      some (getAllowedOrigin optionsReq.origin) :=
  c6_cors_amended.1 optionsReq 0 emptyBucket (handleOptions optionsReq) emptyBucket []
    rfl (fun h => absurd h (by decide))

/-! ### Claim C7 — store exceptions at the handler boundary -/

/-- Claim C7 (counterexample): the Worker retrieval handler has no
try/catch, so when the store client get raises, the exception propagates
out of `handleGet` instead of being converted to a StorageError response. -/
theorem c7_get_exception_counterexample :
    handleGet getReq "k" failGetBucket = .error () := rfl

/-- Claim C7 (amended): on upload a raising store put is caught at the
handler boundary and converted to HTTP 500 `error: "Failed to upload file"`
with exactly one put call (no retry) and the store unchanged; but a raising
store get propagates uncaught out of the Worker retrieval handler (the Go
variants instead convert any get failure to HTTP 500
`error: "Failed to retrieve file"`). -/
theorem c7_store_exception_amended (req : Request) (now : Nat) (b : R2Bucket)
    (f : WFile) (hf : req.file = some f)
    (himg : "image/".data.isPrefixOf f.type.data = true)
    (hput : b.putFails = true)
    (key : String) (bg : R2Bucket) (hg : bg.getFails = true) :
    handleUpload req now b =
      { resp := { status := 500, body := .jsonErr "Failed to upload file",
                  headers := jsonHeaders req },
        bucket := b,
        ops := [.putOp (deriveFilename f.name now)
                  { body := f.bytes, contentType := f.type }] } ∧
    handleGet req key bg = .error () ∧
    goHandleGet key bg =
      ({ status := 500, body := .jsonErr "Failed to retrieve file", headers := [] },
       [.getOp key]) := by
  refine ⟨?_, ?_, ?_⟩
  · simp [handleUpload, hf, himg, R2Bucket.put, hput]
  · simp [handleGet, R2Bucket.get, hg]
  · simp [goHandleGet, goGetFileFromR2, hg]

/-- Witness for the amended claim C7 at a concrete raising store. -/
theorem c7_store_exception_amended_witness :
    handleUpload catReq 0 failPutBucket =
      { resp := { status := 500, body := .jsonErr "Failed to upload file",
                  headers := jsonHeaders catReq },
        bucket := failPutBucket,
        ops := [.putOp (deriveFilename "cat.jpg" 0)
                  { body := [137, 80, 78], contentType := "image/jpeg" }] } ∧
    handleGet catReq "k" failGetBucket = .error () ∧
    goHandleGet "k" failGetBucket =
      ({ status := 500, body := .jsonErr "Failed to retrieve file", headers := [] },
       [.getOp "k"]) :=
  c7_store_exception_amended catReq 0 failPutBucket
    { name := "cat.jpg", type := "image/jpeg", bytes := [137, 80, 78] }
    rfl (by decide) rfl "k" failGetBucket rfl

/-! ### Claim C8 — success response shape -/

/-- Claim C8 (counterexample): Go variant 1 answers a valid image upload
whose put succeeds with HTTP 200 but the body carries
`message: "File uploaded successfully"` and no filename field at all. -/
theorem c8_variant1_response_counterexample :
    (goHandleUpload1 (some { filename := "cat.jpg", contentType := "image/jpeg",
                             bytes := [1, 2, 3] }) emptyBucket).resp.status = 200 ∧
    (goHandleUpload1 (some { filename := "cat.jpg", contentType := "image/jpeg",
                             bytes := [1, 2, 3] }) emptyBucket).resp.body.fname? = none ∧
    (goHandleUpload1 (some { filename := "cat.jpg", contentType := "image/jpeg",
                             bytes := [1, 2, 3] }) emptyBucket).resp.body.msg? ≠
      some "Image uploaded successfully" := by
  decide

/-- Claim C8 (amended): the Worker handler and Go variant 2 answer a valid
image upload whose put succeeds with HTTP 200 and a JSON body carrying both
`message: "Image uploaded successfully"` and `filename` equal to the derived
storage key; Go variant 1 instead returns only
`message: "File uploaded successfully"` with no filename. -/
theorem c8_success_response_amended (req : Request) (now : Nat) (b : R2Bucket)
    (f : WFile) (hf : req.file = some f)
    (himg : "image/".data.isPrefixOf f.type.data = true)
    (hput : b.putFails = false)
    (g : GoFormFile) (b2 : R2Bucket)
    (hgimg : "image/".data.isPrefixOf g.contentType.data = true)
    (hput2 : b2.putFails = false) :
    (handleUpload req now b).resp.status = 200 ∧
    (handleUpload req now b).resp.body =
      .jsonUpload "Image uploaded successfully" (deriveFilename f.name now) ∧
    (goHandleUpload2 (some g) now b2).resp.status = 200 ∧
    (goHandleUpload2 (some g) now b2).resp.body =
      .jsonUpload "Image uploaded successfully" (goDeriveFilename g.filename now) ∧
    (goHandleUpload1 (some g) b2).resp.body.msg? = some "File uploaded successfully" ∧
    (goHandleUpload1 (some g) b2).resp.body.fname? = none := by
  refine ⟨?_, ?_, ?_, ?_, ?_, ?_⟩ <;>
    simp [handleUpload, hf, himg, R2Bucket.put, hput, goHandleUpload2, goHandleUpload1,
      goUploadFileToR2, hgimg, hput2, Body.msg?, Body.fname?]

/-- Witness for the amended claim C8 at a concrete upload. -/
theorem c8_success_response_amended_witness :
    (handleUpload catReq 2309737967 emptyBucket).resp.status = 200 ∧
    (handleUpload catReq 2309737967 emptyBucket).resp.body =
      .jsonUpload "Image uploaded successfully" (deriveFilename "cat.jpg" 2309737967) ∧
    (goHandleUpload2 (some { filename := "cat.jpg", contentType := "image/jpeg",
                             bytes := [1, 2] }) 2309737967 emptyBucket).resp.status = 200 ∧
    (goHandleUpload2 (some { filename := "cat.jpg", contentType := "image/jpeg",
                             bytes := [1, 2] }) 2309737967 emptyBucket).resp.body =
      .jsonUpload "Image uploaded successfully" (goDeriveFilename "cat.jpg" 2309737967) ∧
    (goHandleUpload1 (some { filename := "cat.jpg", contentType := "image/jpeg",
                             bytes := [1, 2] }) emptyBucket).resp.body.msg? =
      some "File uploaded successfully" ∧
    (goHandleUpload1 (some { filename := "cat.jpg", contentType := "image/jpeg",
                             bytes := [1, 2] }) emptyBucket).resp.body.fname? = none :=
  c8_success_response_amended catReq 2309737967 emptyBucket
    { name := "cat.jpg", type := "image/jpeg", bytes := [137, 80, 78] }
    rfl (by decide) rfl
    { filename := "cat.jpg", contentType := "image/jpeg", bytes := [1, 2] }
    emptyBucket (by decide) rfl

/-! ### Claim C9 — startup credential check -/

/-- Claim C9: startup is fatal (the listener is never reached) iff one of
the four storage credentials is empty in the environment; with all four
present the service starts (external `.env` and AWS-config loading are
collaborators outside the model). -/
theorem c9_startup_credentials (getenv : String → String) :
    mainStartup getenv = none ↔
      (getenv "CLOUDFLARE_ACCOUNT_ID" = "" ∨ getenv "CLOUDFLARE_ACCESS_KEY_ID" = "" ∨
       getenv "CLOUDFLARE_ACCESS_KEY_SECRET" = "" ∨ getenv "CLOUDFLARE_BUCKET_NAME" = "") := by
  by_cases h : getenv "CLOUDFLARE_ACCOUNT_ID" = "" ∨ getenv "CLOUDFLARE_ACCESS_KEY_ID" = "" ∨
      getenv "CLOUDFLARE_ACCESS_KEY_SECRET" = "" ∨ getenv "CLOUDFLARE_BUCKET_NAME" = ""
  · simp [mainStartup, NewR2Service, h]
  · simp [mainStartup, NewR2Service, h]

/-- Witness for claim C9: an environment missing the account identifier is
fatal at startup. -/
theorem c9_startup_credentials_witness :
    mainStartup (fun v => if v = "CLOUDFLARE_ACCOUNT_ID" then "" else "x") = none :=
  (c9_startup_credentials _).mpr (Or.inl (by decide))

/-! ### Claim C10 — unsupported methods -/

/-- Claim C10: a request whose method is neither GET, POST nor OPTIONS is
answered 405 with `Allow: GET, POST` and the allow-list CORS header; the
store is returned unchanged and no store call is made. -/
theorem c10_method_not_allowed (req : Request) (now : Nat) (b : R2Bucket)
    (h1 : ¬ req.method = "GET") (h2 : ¬ req.method = "POST")
    (h3 : ¬ req.method = "OPTIONS") :
    workerFetch req now b =
      .ok ({ status := 405, body := .text "Method Not Allowed",
             headers := [("Allow", "GET, POST"),
                         ("Access-Control-Allow-Origin", getAllowedOrigin req.origin)] },
           b, []) := by
  simp [workerFetch, h1, h2, h3]

/-- Witness for claim C10: a DELETE request. -/
theorem c10_method_not_allowed_witness :
    workerFetch { method := "DELETE", pathname := "/img/x", origin := none, file := none }
        0 emptyBucket =
      .ok ({ status := 405, body := .text "Method Not Allowed",
             headers := [("Allow", "GET, POST"),
                         ("Access-Control-Allow-Origin",
                          getAllowedOrigin (none : Option String))] },
           emptyBucket, []) :=
  c10_method_not_allowed
    { method := "DELETE", pathname := "/img/x", origin := none, file := none }
    0 emptyBucket (by decide) (by decide) (by decide)

end ImgHost
